import Mathlib

/-!
Verification of the Madagascar license barcode decoder (linc-scan).

Shallow embedding of `MadagascarLicenseDecoder` (src/utils/licenseDecoder.ts,
current version: the one with `skipXor` and `advancedDecompress`) together with
the JavaScript string/byte primitives it relies on.

Modelling conventions:
* a JavaScript string is a `List Nat` of UTF-16 code units (`JsStr`);
* a byte buffer (`Uint8Array`) is a `List Nat` of values `< 256`;
* `TextDecoder`/`TextEncoder` are the WHATWG UTF-8 codecs with replacement
  (U+FFFD) semantics;
* `pako.inflate` is an external library, modelled as an abstract parameter
  `inflateFn : List Nat → Option (List Nat)` (`none` = the library throws);
* exceptions become `Except JsStr`.
-/

namespace LincScan

set_option maxRecDepth 8192

/-- JS strings are lists of UTF-16 code units. -/
abbrev JsStr := List Nat

/-- Convenience: the code units of an ASCII Lean string literal. -/
def asciiStr (s : String) : JsStr := s.toList.map Char.toNat

/-- The JS whitespace set: `\s` in regexes and the characters removed by
`String.prototype.trim` (WhiteSpace ∪ LineTerminator ∪ U+FEFF). -/
def isJsWs (c : Nat) : Bool :=
  decide ((9 ≤ c ∧ c ≤ 13) ∨ c = 32 ∨ c = 0xA0 ∨ c = 0x1680 ∨
    (0x2000 ≤ c ∧ c ≤ 0x200A) ∨ c = 0x2028 ∨ c = 0x2029 ∨ c = 0x202F ∨
    c = 0x205F ∨ c = 0x3000 ∨ c = 0xFEFF)

/-- `String.prototype.trim`. -/
def jsTrim (s : JsStr) : JsStr :=
  ((s.dropWhile isJsWs).reverse.dropWhile isJsWs).reverse

/-- `str.replace(/\s/g, '')`. -/
def jsStripWs (s : JsStr) : JsStr := s.filter (fun c => ¬ isJsWs c)

/-- Accumulator-style worker for `jsSplit`. -/
def jsSplitGo (sep : Nat) : List Nat → List Nat → List JsStr
  | [], acc => [acc]
  | c :: rest, acc =>
    if c = sep then acc :: jsSplitGo sep rest []
    else jsSplitGo sep rest (acc ++ [c])

/-- `str.split(sep)` for a single-character separator (empty pieces kept,
`"".split(sep) = [""]`). -/
def jsSplit (sep : Nat) (s : JsStr) : List JsStr := jsSplitGo sep s []

/-- Worker for `firstIdxOf`, carrying the current index. -/
def firstIdxOfGo (needle : List Nat) : List Nat → Nat → Option Nat
  | s, i =>
    if needle.isPrefixOf s then some i
    else match s with
      | [] => none
      | _ :: t => firstIdxOfGo needle t (i + 1)

/-- `haystack.indexOf(needle)` (`none` for -1); also embeds the decoder's
`findBytes` helper, which scans for the first occurrence of a byte sequence. -/
def firstIdxOf (s needle : List Nat) : Option Nat := firstIdxOfGo needle s 0

/-! ## WHATWG UTF-8 decoder (TextDecoder, replacement mode) -/

/-- State of the WHATWG UTF-8 decoder. -/
structure Utf8State where
  codepoint : Nat
  needed : Nat
  seen : Nat
  lower : Nat
  upper : Nat
deriving DecidableEq

def utf8Init : Utf8State := ⟨0, 0, 0, 0x80, 0xBF⟩

/-- Process one byte in the initial state: emit a code point (scalar or
U+FFFD for an invalid lead byte) or enter a multi-byte state. -/
def utf8StartByte (b : Nat) : Option Nat × Utf8State :=
  if b ≤ 0x7F then (some b, utf8Init)
  else if 0xC2 ≤ b ∧ b ≤ 0xDF then (none, ⟨b % 32, 1, 0, 0x80, 0xBF⟩)
  else if 0xE0 ≤ b ∧ b ≤ 0xEF then
    (none, ⟨b % 16, 2, 0, if b = 0xE0 then 0xA0 else 0x80,
            if b = 0xED then 0x9F else 0xBF⟩)
  else if 0xF0 ≤ b ∧ b ≤ 0xF4 then
    (none, ⟨b % 8, 3, 0, if b = 0xF0 then 0x90 else 0x80,
            if b = 0xF4 then 0x8F else 0xBF⟩)
  else (some 0xFFFD, utf8Init)

/-- The WHATWG UTF-8 decode loop, producing code points; invalid sequences
produce U+FFFD and, per the standard, an offending byte is reprocessed in the
initial state. -/
def utf8DecodeGo : Utf8State → List Nat → List Nat
  | s, [] => if s.needed ≠ 0 then [0xFFFD] else []
  | s, b :: rest =>
    if s.needed = 0 then
      match utf8StartByte b with
      | (some cp, s2) => cp :: utf8DecodeGo s2 rest
      | (none, s2) => utf8DecodeGo s2 rest
    else if s.lower ≤ b ∧ b ≤ s.upper then
      let cp := s.codepoint * 64 + b % 64
      if s.seen + 1 = s.needed then cp :: utf8DecodeGo utf8Init rest
      else utf8DecodeGo ⟨cp, s.needed, s.seen + 1, 0x80, 0xBF⟩ rest
    else
      0xFFFD ::
        (match utf8StartByte b with
          | (some cp, s2) => cp :: utf8DecodeGo s2 rest
          | (none, s2) => utf8DecodeGo s2 rest)

/-- Code points of a byte buffer under `new TextDecoder().decode`. -/
def utf8DecodeCp (bytes : List Nat) : List Nat := utf8DecodeGo utf8Init bytes

/-- UTF-16 code units of a code point (scalar values; surrogate pair above
U+FFFF). -/
def cpToUtf16 (cp : Nat) : List Nat :=
  if cp < 0x10000 then [cp]
  else [0xD800 + (cp - 0x10000) / 0x400, 0xDC00 + (cp - 0x10000) % 0x400]

/-- `new TextDecoder().decode(bytes)` as a JS string. -/
def jsDecodeBytes (bytes : List Nat) : JsStr :=
  ((utf8DecodeCp bytes).map cpToUtf16).flatten

/-! ## WHATWG UTF-8 encoder (TextEncoder) -/

/-- UTF-16 code units to code points; lone surrogates become U+FFFD. -/
def utf16ToCps : JsStr → List Nat
  | [] => []
  | [u] =>
    if 0xD800 ≤ u ∧ u ≤ 0xDFFF then [0xFFFD] else [u]
  | u :: v :: rest =>
    if 0xD800 ≤ u ∧ u ≤ 0xDBFF then
      if 0xDC00 ≤ v ∧ v ≤ 0xDFFF then
        (0x10000 + (u - 0xD800) * 0x400 + (v - 0xDC00)) :: utf16ToCps rest
      else 0xFFFD :: utf16ToCps (v :: rest)
    else if 0xDC00 ≤ u ∧ u ≤ 0xDFFF then 0xFFFD :: utf16ToCps (v :: rest)
    else u :: utf16ToCps (v :: rest)

/-- UTF-8 bytes of one code point (scalar value). -/
def cpToUtf8 (cp : Nat) : List Nat :=
  if cp ≤ 0x7F then [cp]
  else if cp ≤ 0x7FF then [0xC0 + cp / 64, 0x80 + cp % 64]
  else if cp ≤ 0xFFFF then
    [0xE0 + cp / 4096, 0x80 + cp / 64 % 64, 0x80 + cp % 64]
  else
    [0xF0 + cp / 262144, 0x80 + cp / 4096 % 64, 0x80 + cp / 64 % 64,
     0x80 + cp % 64]

/-- `new TextEncoder().encode(str)`. -/
def utf8Encode (s : JsStr) : List Nat := ((utf16ToCps s).map cpToUtf8).flatten

/-! ## Hex and base64 primitives -/

/-- Lowercase hex digit character for a value `< 16` (as produced by
`Number.prototype.toString(16)`). -/
def hexDigitChar (n : Nat) : Nat := if n < 10 then 48 + n else 87 + n

/-- Embeds `b.toString(16).padStart(2, '0')` for byte values (`b < 256`, the
`Uint8Array` element invariant). -/
def byteToHex (b : Nat) : JsStr := [hexDigitChar (b / 16), hexDigitChar (b % 16)]

/-- Hex rendering of a byte buffer:
`Array.from(bytes).map(b => b.toString(16).padStart(2,'0')).join('')`. -/
def hexEncode (bytes : List Nat) : JsStr := (bytes.map byteToHex).flatten

/-- Character class `[0-9a-fA-F]` of the hex-detection regex. -/
def isHexCharB (c : Nat) : Bool :=
  decide ((48 ≤ c ∧ c ≤ 57) ∨ (97 ≤ c ∧ c ≤ 102) ∨ (65 ≤ c ∧ c ≤ 70))

/-- Value of a hex digit character, `none` if not a hex digit. -/
def hexDigitVal (c : Nat) : Option Nat :=
  if 48 ≤ c ∧ c ≤ 57 then some (c - 48)
  else if 97 ≤ c ∧ c ≤ 102 then some (c - 87)
  else if 65 ≤ c ∧ c ≤ 70 then some (c - 55)
  else none

/-- `parseInt(twoChars, 16)` followed by the `Uint8Array` store: JS `parseInt`
parses the longest valid prefix and yields NaN (stored as 0) when the first
character is invalid. -/
def hexPairVal (c1 c2 : Nat) : Nat :=
  match hexDigitVal c1 with
  | none => 0
  | some h1 =>
    match hexDigitVal c2 with
    | none => h1
    | some h2 => 16 * h1 + h2

/-- The byte-building loop of `hexToBinary` (`i += 2` over an even-length
string). -/
def hexPairs : JsStr → List Nat
  | c1 :: c2 :: rest => hexPairVal c1 c2 :: hexPairs rest
  | _ => []

/-- `MadagascarLicenseDecoder.hexToBinary`. -/
def hexToBinary (hexData : JsStr) : Except JsStr (List Nat) :=
  let cleanHex := jsStripWs (jsTrim hexData)
  if cleanHex.length % 2 ≠ 0 then
    .error (asciiStr "Invalid hex string: odd number of characters")
  else .ok (hexPairs cleanHex)

/-- Value of a base64 alphabet character. -/
def b64CharVal (c : Nat) : Option Nat :=
  if 65 ≤ c ∧ c ≤ 90 then some (c - 65)
  else if 97 ≤ c ∧ c ≤ 122 then some (c - 71)
  else if 48 ≤ c ∧ c ≤ 57 then some (c + 4)
  else if c = 43 then some 62
  else if c = 47 then some 63
  else none

def isB64Char (c : Nat) : Bool := (b64CharVal c).isSome

/-- The guard regex `^[A-Za-z0-9+/]*={0,2}$` of `detectAndConvertToBinary`. -/
def base64GuardOk (s : JsStr) : Bool :=
  let r := s.reverse
  decide ((r.takeWhile (fun c => c = 61)).length ≤ 2) &&
    (r.dropWhile (fun c => c = 61)).all isB64Char

/-- Reassemble bytes from 6-bit values (groups of 4; trailing groups of 2 or 3
from stripped padding; a trailing group of 1 is invalid). -/
def b64Groups : List Nat → Option (List Nat)
  | [] => some []
  | [_] => none
  | [a, b] => some [a * 4 + b / 16]
  | [a, b, c] => some [a * 4 + b / 16, b % 16 * 16 + c / 4]
  | a :: b :: c :: d :: rest =>
    match b64Groups rest with
    | none => none
    | some bytes => some ([a * 4 + b / 16, b % 16 * 16 + c / 4, c % 4 * 64 + d] ++ bytes)

/-- Map base64 characters to their values, failing on a non-alphabet char. -/
def b64Vals : List Nat → Option (List Nat)
  | [] => some []
  | c :: rest =>
    match b64CharVal c with
    | none => none
    | some v =>
      match b64Vals rest with
      | none => none
      | some vs => some (v :: vs)

/-- `window.atob` (WHATWG forgiving-base64 decode); `none` when it throws. -/
def atob (s : JsStr) : Option (List Nat) :=
  let t := s.filter (fun c => ¬ (c = 9 ∨ c = 10 ∨ c = 12 ∨ c = 13 ∨ c = 32))
  let pad := min ((t.reverse.takeWhile (fun c => c = 61)).length) 2
  let t := if t.length % 4 = 0 then t.take (t.length - pad) else t
  if t.length % 4 = 1 then none
  else
    match b64Vals t with
    | none => none
    | some vs => b64Groups vs

/-- Base64 alphabet character for a value `< 64`. -/
def b64Char (n : Nat) : Nat :=
  if n < 26 then 65 + n
  else if n < 52 then 71 + n
  else if n < 62 then n - 4
  else if n = 62 then 43
  else 47

/-- `btoa` over a byte buffer; embeds `arrayBufferToBase64` (which builds a
binary string from the bytes and calls `btoa`). -/
def btoaBytes : List Nat → JsStr
  | [] => []
  | [a] => [b64Char (a / 4), b64Char (a % 4 * 16), 61, 61]
  | [a, b] => [b64Char (a / 4), b64Char (a % 4 * 16 + b / 16), b64Char (b % 16 * 4), 61]
  | a :: b :: c :: rest =>
    [b64Char (a / 4), b64Char (a % 4 * 16 + b / 16), b64Char (b % 16 * 4 + c / 64),
     b64Char (c % 64)] ++ btoaBytes rest

/-- Decimal rendering of a number (`${n}` in a template literal). -/
def natToDec (n : Nat) : JsStr := (Nat.toDigits 10 n).map Char.toNat

/-! ## The decoder: data model -/

/-- `LicenseData` (licenseDecoder.ts). -/
structure LicenseData where
  person_name : JsStr
  id_number : JsStr
  date_of_birth : JsStr
  license_number : JsStr
  valid_from : JsStr
  valid_to : JsStr
  license_codes : List JsStr
  vehicle_restrictions : List JsStr
  driver_restrictions : List JsStr
  sex : JsStr
  country : JsStr
  format_version : JsStr
deriving DecidableEq

/-- `DecodedResult` (licenseDecoder.ts). The failure path of
`decodeBarcodeData` fills `license_data` with an empty-object cast, modelled
as `none`. -/
structure DecodedResult where
  success : Bool
  license_data : Option LicenseData
  has_image : Bool
  image_size_bytes : Nat
  total_payload_size : Nat
  decoding_format : JsStr
  message : JsStr
  image_base64 : Option JsStr
  image_format : Option JsStr
  error : Option JsStr
deriving DecidableEq

/-! ## Cipher stage -/

/-- `MadagascarLicenseDecoder.STATIC_ENCRYPTION_KEY`. -/
def STATIC_ENCRYPTION_KEY : String := "93E98969AD11D2C8162DD95DB3F69"

/-- `new TextEncoder().encode(STATIC_ENCRYPTION_KEY)` (pure ASCII). -/
def keyBytes : List Nat := STATIC_ENCRYPTION_KEY.toList.map Char.toNat

/-- The XOR loop of `staticDecrypt`, starting at index `i`:
`decrypted[i] = data[i] ^ keyBytes[i % keyBytes.length]`. -/
def xorWithKeyFrom (i : Nat) : List Nat → List Nat
  | [] => []
  | b :: rest => (b ^^^ keyBytes.getD (i % keyBytes.length) 0) :: xorWithKeyFrom (i + 1) rest

/-- `MadagascarLicenseDecoder.staticDecrypt`. -/
def staticDecrypt (data : List Nat) : List Nat := xorWithKeyFrom 0 data

/-! ## Regex matchers

The two structural patterns are concrete enough to admit a direct matcher:
in both, every quantified character class excludes the delimiter that follows
it, so the backtracking regex engine has no freedom — each group is the
maximal run of its class, and the only search is over the start position
(leftmost match). -/

/-- Regex class `[A-Z]`. -/
def isUpperC (c : Nat) : Bool := decide (65 ≤ c ∧ c ≤ 90)

/-- Regex class `\d`. -/
def isDigitC (c : Nat) : Bool := decide (48 ≤ c ∧ c ≤ 57)

/-- Regex class `[A-Z\s]` (group 1). -/
def cls1 (c : Nat) : Bool := isUpperC c || isJsWs c

/-- Regex class `[A-Z\d]` (group 4). -/
def cls4 (c : Nat) : Bool := isUpperC c || isDigitC c

/-- Regex class `[A-Z,]` (group 6). -/
def cls6 (c : Nat) : Bool := isUpperC c || decide (c = 44)

/-- Regex class `[^|]` (groups 7 and 8). -/
def clsNotPipe (c : Nat) : Bool := decide (c ≠ 124)

/-- Match a maximal run of `cls` followed by a literal `|`; returns the run
and the remainder after the `|`. -/
def runThenPipe (cls : Nat → Bool) (s : JsStr) : Option (JsStr × JsStr) :=
  let run := s.takeWhile cls
  match s.drop run.length with
  | 124 :: rest => some (run, rest)
  | _ => none

/-- Attempt the parser pattern
`([A-Z\s]+)\|(\d+)\|(\d{8})\|([A-Z\d]+)\|(\d{8}-\d{8})\|([A-Z,]*)\|([^|]*)\|([^|]*)\|([MF])`
anchored at the start of `s`; returns the nine capture groups. -/
def matchParseAt (s : JsStr) : Option (List JsStr) :=
  match runThenPipe cls1 s with
  | none => none
  | some (g1, s1) =>
    if g1 = [] then none else
    match runThenPipe isDigitC s1 with
    | none => none
    | some (g2, s2) =>
      if g2 = [] then none else
      match runThenPipe isDigitC s2 with
      | none => none
      | some (g3, s3) =>
        if g3.length ≠ 8 then none else
        match runThenPipe cls4 s3 with
        | none => none
        | some (g4, s4) =>
          if g4 = [] then none else
          let d1 := s4.takeWhile isDigitC
          if d1.length ≠ 8 then none else
          match s4.drop 8 with
          | 45 :: s5 =>
            let d2 := s5.takeWhile isDigitC
            if d2.length ≠ 8 then none else
            match s5.drop 8 with
            | 124 :: s6 =>
              match runThenPipe cls6 s6 with
              | none => none
              | some (g6, s7) =>
                match runThenPipe clsNotPipe s7 with
                | none => none
                | some (g7, s8) =>
                  match runThenPipe clsNotPipe s8 with
                  | none => none
                  | some (g8, s9) =>
                    match s9 with
                    | c :: _ =>
                      if c = 77 ∨ c = 70 then
                        some [g1, g2, g3, g4, d1 ++ 45 :: d2, g6, g7, g8, [c]]
                      else none
                    | [] => none
            | _ => none
          | _ => none

/-- `cleanedStr.match(parser pattern)`: leftmost match, returning the nine
capture groups (`match.slice(1)` in the source). -/
def findMatchParse : JsStr → Option (List JsStr)
  | [] => none
  | c :: t =>
    match matchParseAt (c :: t) with
    | some gs => some gs
    | none => findMatchParse t

/-- Regex class `[\d\-]` (the fifth segment of the decompression pattern). -/
def cls5d (c : Nat) : Bool := isDigitC c || decide (c = 45)

/-- Attempt the decompression-fallback pattern
`[A-Z\s]+\|[\d]+\|[\d]{8}\|[A-Z\d]+\|[\d\-]+\|[A-Z,]*\|[^|]*\|[^|]*\|[MF]`
anchored at the start of `s`; returns the matched substring. -/
def matchDecompAt (s : JsStr) : Option JsStr :=
  match runThenPipe cls1 s with
  | none => none
  | some (g1, s1) =>
    if g1 = [] then none else
    match runThenPipe isDigitC s1 with
    | none => none
    | some (g2, s2) =>
      if g2 = [] then none else
      match runThenPipe isDigitC s2 with
      | none => none
      | some (g3, s3) =>
        if g3.length ≠ 8 then none else
        match runThenPipe cls4 s3 with
        | none => none
        | some (g4, s4) =>
          if g4 = [] then none else
          match runThenPipe cls5d s4 with
          | none => none
          | some (g5, s5) =>
            if g5 = [] then none else
            match runThenPipe cls6 s5 with
            | none => none
            | some (g6, s6) =>
              match runThenPipe clsNotPipe s6 with
              | none => none
              | some (g7, s7) =>
                match runThenPipe clsNotPipe s7 with
                | none => none
                | some (g8, s8) =>
                  match s8 with
                  | c :: _ =>
                    if c = 77 ∨ c = 70 then
                      some (g1 ++ 124 :: g2 ++ 124 :: g3 ++ 124 :: g4 ++ 124 ::
                            g5 ++ 124 :: g6 ++ 124 :: g7 ++ 124 :: g8 ++ [124, c])
                    else none
                  | [] => none

/-- `readableText.match(decompression pattern)[0]`: the leftmost matched
substring (first element of the global match), `none` when the regex finds no
match. -/
def findMatchDecomp : JsStr → Option JsStr
  | [] => none
  | c :: t =>
    match matchDecompAt (c :: t) with
    | some m => some m
    | none => findMatchDecomp t

/-! ## Decompression stage -/

/-- The printable test of the text-extraction fallback:
`(byte >= 32 && byte <= 126) || byte === 9 || byte === 10 || byte === 13`. -/
def isPrintableByte (b : Nat) : Bool :=
  decide ((32 ≤ b ∧ b ≤ 126) ∨ b = 9 ∨ b = 10 ∨ b = 13)

/-- One iteration of the readable-text extraction loop of
`advancedDecompress`. -/
def extractStep (acc : JsStr) (b : Nat) : JsStr :=
  if isPrintableByte b then acc ++ [b]
  else if acc ≠ [] ∧ acc.getLast? ≠ some 124 then acc ++ [124]
  else acc

/-- The readable-text extraction of `advancedDecompress` (method 2). -/
def extractReadable (data : List Nat) : JsStr := data.foldl extractStep []

/-- The `||IMG||` marker as a JS string. -/
def imgMarkerStr : JsStr := asciiStr "||IMG||"

/-- `new TextEncoder().encode("||IMG||")`. -/
def imgMarkerBytes : List Nat := utf8Encode imgMarkerStr

/-- The partial-offset retry loop (method 4): for each `skipBytes` below
`min(50, data.length)`, retry `inflate` when the byte at that offset is the
zlib header byte `0x78`. -/
def tryOffsets (inflateFn : List Nat → Option (List Nat)) (data : List Nat) :
    List Nat → Option (List Nat)
  | [] => none
  | k :: ks =>
    let pd := data.drop k
    if pd.head? = some 0x78 then
      match inflateFn pd with
      | some r => some r
      | none => tryOffsets inflateFn data ks
    else tryOffsets inflateFn data ks

/-- `MadagascarLicenseDecoder.advancedDecompress`. -/
def advancedDecompress (inflateFn : List Nat → Option (List Nat))
    (data : List Nat) : Except JsStr (List Nat) :=
  match inflateFn data with
  | some r => .ok r
  | none =>
    let readableText := extractReadable data
    match findMatchDecomp readableText with
    | some m =>
      if (firstIdxOf readableText imgMarkerStr).isSome then
        .ok (utf8Encode readableText)
      else .ok (utf8Encode m)
    | none =>
      match tryOffsets inflateFn data (List.range (min 50 data.length)) with
      | some r => .ok r
      | none =>
        if readableText.length > 20 then .ok (utf8Encode readableText)
        else .error (asciiStr "All decompression methods failed")

/-! ## Record parser -/

/-- The image split of `parseMadagascarFormat`: first look for `||IMG||` in
the text-decoded view (license part re-encoded with TextEncoder, image part
rebuilt with `charCodeAt(i) & 0xFF`), then in the raw byte view; returns
(licenseDataBytes, imageBytes, hasImage). -/
def imgSplit (data : List Nat) : List Nat × List Nat × Bool :=
  let text := jsDecodeBytes data
  match firstIdxOf text imgMarkerStr with
  | some i =>
    (utf8Encode (text.take i), (text.drop (i + 7)).map (· % 256), true)
  | none =>
    match firstIdxOf data imgMarkerBytes with
    | some j => (data.take j, data.drop (j + imgMarkerBytes.length), true)
    | none => (data, [], false)

def licensePartOf (data : List Nat) : List Nat := (imgSplit data).1

def imageBytesOf (data : List Nat) : List Nat := (imgSplit data).2.1

def hasImageOf (data : List Nat) : Bool := (imgSplit data).2.2

/-- `cleanedStr`: decode the license segment, strip null bytes, trim. -/
def cleanedOf (data : List Nat) : JsStr :=
  jsTrim ((jsDecodeBytes (licensePartOf data)).filter (fun c => c ≠ 0))

/-- Pad the split fields with empty strings up to 9
(`while (fields.length < 9) fields.push('')`). -/
def padFields (fields : List JsStr) : List JsStr :=
  fields ++ List.replicate (9 - fields.length) []

/-- The field-extraction step of `parseMadagascarFormat`: structural pattern
match first, else pipe split with the ≥5-field check and padding to 9. -/
def extractFields (cleaned : JsStr) : Except JsStr (List JsStr) :=
  match findMatchParse cleaned with
  | some gs => .ok gs
  | none =>
    let fields := jsSplit 124 cleaned
    if fields.length < 5 then
      .error (asciiStr "Expected at least 5 fields in license data, got " ++
        natToDec fields.length ++ asciiStr ". Data: " ++ cleaned.take 100)
    else .ok (padFields fields)

/-- Field-to-record mapping of `parseMadagascarFormat` (valid-range split,
date formatting, comma splits, constants). -/
def formatDate (dateStr : JsStr) : JsStr :=
  if dateStr.length ≠ 8 then dateStr
  else dateStr.take 4 ++ 45 :: (dateStr.drop 4).take 2 ++ 45 :: (dateStr.drop 6).take 2

/-- Build the `LicenseData` object from the nine fields (the source indexes
`fields[0]`‥`fields[8]`; `getD` mirrors JS indexing with `''` defaults via
the `|| ''` guards). -/
def buildLicenseData (fields : List JsStr) : LicenseData :=
  let f := fun i => fields.getD i []
  let validDates := if f 4 = [] then [[], []] else jsSplit 45 (f 4)
  { person_name := f 0
    id_number := f 1
    date_of_birth := formatDate (f 2)
    license_number := f 3
    valid_from := formatDate (validDates.getD 0 [])
    valid_to := formatDate (validDates.getD 1 [])
    license_codes := if f 5 = [] then [] else jsSplit 44 (f 5)
    vehicle_restrictions := if f 6 = [] then [] else jsSplit 44 (f 6)
    driver_restrictions := if f 7 = [] then [] else jsSplit 44 (f 7)
    sex := f 8
    country := asciiStr "MG"
    format_version := asciiStr "standardized_madagascar_v5" }

/-- The image-format sniffing of `parseMadagascarFormat`: JPEG magic, PNG
magic, JFIF text, else Unknown. -/
def sniffFormat (imageBytes : List Nat) : JsStr :=
  if 3 ≤ imageBytes.length ∧ imageBytes.getD 0 0 = 0xFF ∧
      imageBytes.getD 1 0 = 0xD8 ∧ imageBytes.getD 2 0 = 0xFF then
    asciiStr "JPEG"
  else if 4 ≤ imageBytes.length ∧ imageBytes.getD 0 0 = 0x89 ∧
      imageBytes.getD 1 0 = 0x50 ∧ imageBytes.getD 2 0 = 0x4E ∧
      imageBytes.getD 3 0 = 0x47 then
    asciiStr "PNG"
  else if (asciiStr "JFIF").isPrefixOf (jsDecodeBytes (imageBytes.take 10)) then
    asciiStr "JPEG"
  else asciiStr "Unknown"

/-- `MadagascarLicenseDecoder.parseMadagascarFormat`. The only throw inside
the `try` is the <5-fields check; the outer catch rethrows with the
`Failed to parse license data: ${error}` prefix. -/
def parseMadagascarFormat (decompressedData : List Nat) :
    Except JsStr DecodedResult :=
  match extractFields (cleanedOf decompressedData) with
  | .error e => .error (asciiStr "Failed to parse license data: Error: " ++ e)
  | .ok fields =>
    let licenseData := buildLicenseData fields
    let imageBytes := imageBytesOf decompressedData
    let hasImage := hasImageOf decompressedData
    let base : DecodedResult :=
      { success := true
        license_data := some licenseData
        has_image := hasImage
        image_size_bytes := imageBytes.length
        total_payload_size := decompressedData.length
        decoding_format := asciiStr "pipe_delimited_xor_encrypted"
        message := asciiStr "Madagascar license decoded successfully: " ++
          licenseData.license_number
        image_base64 := none
        image_format := none
        error := none }
    .ok (if hasImage ∧ imageBytes.length > 0 then
          { base with
            image_base64 := some (btoaBytes imageBytes)
            image_format := some (sniffFormat imageBytes) }
        else base)

/-! ## Input normalizer and entry point -/

/-- `MadagascarLicenseDecoder.detectAndConvertToBinary`: hex guard, base64
guard (falling through to method 3 when `atob` throws), and the raw
`charCodeAt & 0xFF` fallback. -/
def detectAndConvertToBinary (data : JsStr) : Except JsStr (List Nat) :=
  let trimmed := jsTrim data
  if (trimmed ≠ [] ∧ trimmed.all isHexCharB) ∧ data.length % 2 = 0 then
    hexToBinary data
  else if base64GuardOk trimmed ∧ data.length % 4 = 0 then
    match atob trimmed with
    | some bytes => .ok bytes
    | none => .ok (data.map (· % 256))
  else .ok (data.map (· % 256))

/-- The failure object built by the catch block of `decodeBarcodeData`. -/
def failureResult (msg : JsStr) : DecodedResult :=
  { success := false
    license_data := none
    has_image := false
    image_size_bytes := 0
    total_payload_size := 0
    decoding_format := asciiStr "pipe_delimited_xor_encrypted"
    message := asciiStr "Failed to decode barcode data"
    image_base64 := none
    image_format := none
    error := some msg }

/-- The four pipeline stages of `decodeBarcodeData` before its catch. -/
def decodePipeline (inflateFn : List Nat → Option (List Nat))
    (scannedData : JsStr) (skipXor : Bool) : Except JsStr DecodedResult :=
  match detectAndConvertToBinary scannedData with
  | .error e => .error e
  | .ok binaryData =>
    let decryptedData := if skipXor then binaryData else staticDecrypt binaryData
    match advancedDecompress inflateFn decryptedData with
    | .error e => .error e
    | .ok decompressedData => parseMadagascarFormat decompressedData

/-- `MadagascarLicenseDecoder.decodeBarcodeData` (total: errors become the
failure result). -/
def decodeBarcodeData (inflateFn : List Nat → Option (List Nat))
    (scannedData : JsStr) (skipXor : Bool) : DecodedResult :=
  match decodePipeline inflateFn scannedData skipXor with
  | .ok r => r
  | .error e => failureResult e

/-- A record expressible in the 9-field pipe-delimited schema (§6 of the
spec); `validity` is the single hyphen-joined token of field 4. -/
structure LicenseRecord where
  name : JsStr
  idNum : JsStr
  dob : JsStr
  licNum : JsStr
  validity : JsStr
  codes : JsStr
  vehRestr : JsStr
  drvRestr : JsStr
  sex : JsStr
deriving DecidableEq

/-- The nine fields of a record, in wire order. -/
def recordFields (R : LicenseRecord) : List JsStr :=
  [R.name, R.idNum, R.dob, R.licNum, R.validity, R.codes, R.vehRestr,
   R.drvRestr, R.sex]

/-- The pipe-delimited serialization
`name|id|dob|licnum|validity|codes|vehRestr|drvRestr|sex`. -/
def serializeRecord (R : LicenseRecord) : JsStr :=
  R.name ++ (124 :: (R.idNum ++ (124 :: (R.dob ++ (124 :: (R.licNum ++ (124 ::
  (R.validity ++ (124 :: (R.codes ++ (124 :: (R.vehRestr ++ (124 ::
  (R.drvRestr ++ (124 :: R.sex)))))))))))))))

/-! ## Helper lemmas: cipher stage -/

theorem xorWithKeyFrom_length (data : List Nat) : ∀ i, (xorWithKeyFrom i data).length = data.length := by
  induction data with
  | nil => intro i; rfl
  | cons b rest ih => intro i; simp [xorWithKeyFrom, ih]

theorem xorWithKeyFrom_involutive (data : List Nat) : ∀ i, xorWithKeyFrom i (xorWithKeyFrom i data) = data := by
  induction data with
  | nil => intro i; rfl
  | cons b rest ih =>
    intro i
    simp [xorWithKeyFrom, ih, Nat.xor_cancel_right]

theorem staticDecrypt_involutive (data : List Nat) : staticDecrypt (staticDecrypt data) = data :=
  xorWithKeyFrom_involutive data 0

theorem staticDecrypt_length (data : List Nat) : (staticDecrypt data).length = data.length :=
  xorWithKeyFrom_length data 0

theorem keyBytes_getD_lt (i : Nat) : keyBytes.getD (i % keyBytes.length) 0 < 256 := by
  have hlen : keyBytes.length = 29 := by decide
  rw [hlen]
  have hlt : i % 29 < 29 := Nat.mod_lt _ (by omega)
  set j := i % 29 with hj
  clear_value j
  interval_cases j <;> decide

theorem xorWithKeyFrom_lt256 (data : List Nat) : ∀ i, (∀ b ∈ data, b < 256) → ∀ b ∈ xorWithKeyFrom i data, b < 256 := by
  induction data with
  | nil => intro i _ b hb; simp [xorWithKeyFrom] at hb
  | cons a rest ih =>
    intro i h b hb
    simp only [xorWithKeyFrom, List.mem_cons] at hb
    rcases hb with rfl | hb
    · exact Nat.xor_lt_two_pow (n := 8) (h a (by simp)) (keyBytes_getD_lt i)
    · exact ih (i + 1) (fun x hx => h x (by simp [hx])) b hb

theorem staticDecrypt_lt256 (data : List Nat) (h : ∀ b ∈ data, b < 256) : ∀ b ∈ staticDecrypt data, b < 256 :=
  xorWithKeyFrom_lt256 data 0 h

/-! ## Claim theorems: cipher stage -/

/-- C2. For every byte buffer `b` (including the empty buffer) and the fixed
static key, `staticDecrypt` is total (a Lean function by construction), never
fails, preserves length, is self-inverse, and maps the empty buffer to the
empty buffer. -/
theorem claim_c2_staticDecrypt_total_length_involutive (data : List Nat) :
    (staticDecrypt data).length = data.length ∧
    staticDecrypt (staticDecrypt data) = data ∧
    staticDecrypt [] = [] :=
  ⟨staticDecrypt_length data, staticDecrypt_involutive data, rfl⟩

/-- C9 (counterexample). The static cipher key is not 30 characters long. -/
theorem claim_c9_counterexample : ¬ STATIC_ENCRYPTION_KEY.length = 30 := by decide

/-- C9 (amended). The static cipher key is a fixed ASCII string of exactly 29
characters, so the repeating-key XOR cycles with period 29. -/
theorem claim_c9_key_length_29 :
    STATIC_ENCRYPTION_KEY.length = 29 ∧ keyBytes.length = 29 ∧
    ∀ i, keyBytes.getD ((i + 29) % keyBytes.length) 0 =
      keyBytes.getD (i % keyBytes.length) 0 := by
  refine ⟨by decide, by decide, fun i => ?_⟩
  have hlen : keyBytes.length = 29 := by decide
  rw [hlen, Nat.add_mod_right]

/-! ## Claim theorems: date formatting -/

/-- C4. `formatDate` returns any token whose length is not 8 unchanged, and
maps an 8-character token to characters 0-3, a hyphen, characters 4-5, a
hyphen, and characters 6-7. -/
theorem claim_c4_formatDate (s : JsStr) :
    (s.length ≠ 8 → formatDate s = s) ∧
    (∀ a b c d e f g i, s = [a, b, c, d, e, f, g, i] →
      formatDate s = [a, b, c, d, 45, e, f, 45, g, i]) := by
  constructor
  · intro h; simp [formatDate, h]
  · rintro a b c d e f g i rfl; rfl

/-- C4 (witness). -/
theorem claim_c4_witness :
    formatDate (asciiStr "19800115") = asciiStr "1980-01-15" ∧
    formatDate (asciiStr "198001") = asciiStr "198001" := by
  constructor
  · exact ((claim_c4_formatDate (asciiStr "19800115")).2 49 57 56 48 48 49 49 53 (by decide)).trans (by decide)
  · exact (claim_c4_formatDate (asciiStr "198001")).1 (by decide)

/-! ## Claim theorems: printable-text extraction (C5) -/

/-- C5 (counterexample). A non-printable byte arriving on an empty buffer
appends nothing, although the empty buffer does not end with a pipe — so
"appends a `|` iff the buffer does not already end with `|`" is false. -/
theorem claim_c5_counterexample :
    extractReadable [0] = [] ∧ extractReadable [0] ≠ [124] ∧
    (extractReadable []).getLast? ≠ some 124 := by decide

/-- C5 (amended). The extraction processes bytes in order: a printable byte
(0x20–0x7E, tab, LF, CR) is appended; any other byte appends a `|` iff the
buffer so far is nonempty and does not already end with `|` (so runs of
non-printable bytes contribute at most one delimiter, and leading ones
contribute none). -/
theorem claim_c5_extract_step (data : List Nat) (b : Nat) :
    extractReadable (data ++ [b]) =
      if isPrintableByte b then extractReadable data ++ [b]
      else if extractReadable data ≠ [] ∧ (extractReadable data).getLast? ≠ some 124 then
        extractReadable data ++ [124]
      else extractReadable data := by
  simp only [extractReadable, List.foldl_append, List.foldl_cons, List.foldl_nil]
  rfl

/-! ## Claim theorems: decompression fallthrough (C6) -/

/-- C6 (counterexample). The exhausted-fallback error message is
`"All decompression methods failed"` (capital A), not
`"all decompression methods failed"` as the claim quotes it. -/
theorem claim_c6_counterexample :
    advancedDecompress (fun _ => none) ([] : List Nat) =
      .error (asciiStr "All decompression methods failed") ∧
    asciiStr "All decompression methods failed" ≠
      asciiStr "all decompression methods failed" := by
  exact ⟨rfl, by decide⟩

/-- C6 (amended). When primary inflate fails, the pattern finds no match in
the extracted text, and no partial-offset retry succeeds, decompression
returns the extracted text verbatim iff it is longer than 20 characters and
otherwise fails with `"All decompression methods failed"`; conversely any
error of `advancedDecompress` is that message and occurs only in that
situation. -/
theorem claim_c6_decompress_fallthrough (inflateFn : List Nat → Option (List Nat))
    (data : List Nat) :
    (inflateFn data = none →
     findMatchDecomp (extractReadable data) = none →
     tryOffsets inflateFn data (List.range (min 50 data.length)) = none →
     advancedDecompress inflateFn data =
       if 20 < (extractReadable data).length then
         .ok (utf8Encode (extractReadable data))
       else .error (asciiStr "All decompression methods failed")) ∧
    (∀ e, advancedDecompress inflateFn data = .error e →
      e = asciiStr "All decompression methods failed" ∧
      inflateFn data = none ∧
      findMatchDecomp (extractReadable data) = none ∧
      tryOffsets inflateFn data (List.range (min 50 data.length)) = none ∧
      (extractReadable data).length ≤ 20) := by
  constructor
  · intro h1 h2 h3
    simp only [advancedDecompress, h1, h2, h3]
  · intro e he
    simp only [advancedDecompress] at he
    cases h1 : inflateFn data with
    | some r => simp only [h1] at he; simp at he
    | none =>
      simp only [h1] at he
      cases h2 : findMatchDecomp (extractReadable data) with
      | some m =>
        simp only [h2] at he
        by_cases him : (firstIdxOf (extractReadable data) imgMarkerStr).isSome = true
        · simp [him] at he
        · simp [him] at he
      | none =>
        simp only [h2] at he
        cases h3 : tryOffsets inflateFn data (List.range (min 50 data.length)) with
        | some r => simp only [h3] at he; simp at he
        | none =>
          simp only [h3] at he
          by_cases hlen : 20 < (extractReadable data).length
          · simp [hlen] at he
          · simp [hlen] at he
            exact ⟨he.symm, rfl, rfl, rfl, by omega⟩

/-- C6 (witness). -/
theorem claim_c6_witness :
    advancedDecompress (fun _ => none) ([] : List Nat) =
      .error (asciiStr "All decompression methods failed") := by
  have h := (claim_c6_decompress_fallthrough (fun _ => none) []).1 rfl rfl rfl
  simpa using h

/-! ## Claim theorems: field-count handling of the parser (C3, C10) -/

/-- C3. When the structural pattern does not match the cleaned license text,
the parser fails exactly when its pipe split yields fewer than 5 fields, and
for 5 to 8 fields it succeeds after padding the field sequence with empty
strings to exactly 9. -/
theorem claim_c3_field_count (data : List Nat)
    (hnp : findMatchParse (cleanedOf data) = none) :
    ((parseMadagascarFormat data).isOk = false ↔
      (jsSplit 124 (cleanedOf data)).length < 5) ∧
    (5 ≤ (jsSplit 124 (cleanedOf data)).length →
     (jsSplit 124 (cleanedOf data)).length ≤ 8 →
      extractFields (cleanedOf data) =
        .ok (jsSplit 124 (cleanedOf data) ++
          List.replicate (9 - (jsSplit 124 (cleanedOf data)).length) []) ∧
      (jsSplit 124 (cleanedOf data) ++
        List.replicate (9 - (jsSplit 124 (cleanedOf data)).length) []).length = 9 ∧
      (parseMadagascarFormat data).isOk = true) := by
  rcases Nat.lt_or_ge (jsSplit 124 (cleanedOf data)).length 5 with h5 | h5
  · have hef : extractFields (cleanedOf data) =
        .error (asciiStr "Expected at least 5 fields in license data, got " ++
          natToDec (jsSplit 124 (cleanedOf data)).length ++ asciiStr ". Data: " ++
          (cleanedOf data).take 100) := by
      simp [extractFields, hnp, h5]
    refine ⟨⟨fun _ => h5, fun _ => ?_⟩, fun h5' _ => absurd h5' (by omega)⟩
    simp only [parseMadagascarFormat, hef]
    rfl
  · have h5' : ¬ ((jsSplit 124 (cleanedOf data)).length < 5) := by omega
    have hef : extractFields (cleanedOf data) =
        .ok (jsSplit 124 (cleanedOf data) ++
          List.replicate (9 - (jsSplit 124 (cleanedOf data)).length) []) := by
      simp [extractFields, hnp, h5', padFields]
    have hok : (parseMadagascarFormat data).isOk = true := by
      simp only [parseMadagascarFormat, hef]
      rfl
    refine ⟨⟨fun hfalse => ?_, fun h5'' => absurd h5'' (by omega)⟩,
      fun _ h8 => ⟨hef, ?_, hok⟩⟩
    · rw [hok] at hfalse; cases hfalse
    · simp only [List.length_append, List.length_replicate]
      omega

/-- C3 (witness). A 5-field text with no pattern match parses successfully
with the fields padded to 9. -/
theorem claim_c3_witness :
    extractFields (cleanedOf (asciiStr "a|b|c|d|e")) =
      .ok (jsSplit 124 (cleanedOf (asciiStr "a|b|c|d|e")) ++
        List.replicate (9 - (jsSplit 124 (cleanedOf (asciiStr "a|b|c|d|e"))).length) []) ∧
    (parseMadagascarFormat (asciiStr "a|b|c|d|e")).isOk = true := by
  have h := (claim_c3_field_count (asciiStr "a|b|c|d|e") (by decide)).2
    (by decide) (by decide)
  exact ⟨h.1, h.2.2⟩

theorem getD_take_nine (l : List JsStr) (i : Nat) (h : i < 9) :
    (l.take 9).getD i [] = l.getD i [] := by
  rw [List.getD_eq_getElem?_getD, List.getD_eq_getElem?_getD, List.getElem?_take,
    if_pos h]

theorem buildLicenseData_take_nine (l : List JsStr) :
    buildLicenseData (l.take 9) = buildLicenseData l := by
  simp only [buildLicenseData]
  rw [getD_take_nine l 0 (by omega), getD_take_nine l 1 (by omega),
    getD_take_nine l 2 (by omega), getD_take_nine l 3 (by omega),
    getD_take_nine l 4 (by omega), getD_take_nine l 5 (by omega),
    getD_take_nine l 6 (by omega), getD_take_nine l 7 (by omega),
    getD_take_nine l 8 (by omega)]

/-- C10. When the structural pattern does not match and the pipe split yields
strictly more than 9 fields, the parser succeeds and builds the record from
the first 9 fields only, ignoring the extras. -/
theorem claim_c10_extra_fields_ignored (data : List Nat)
    (hnp : findMatchParse (cleanedOf data) = none)
    (h9 : 9 < (jsSplit 124 (cleanedOf data)).length) :
    (parseMadagascarFormat data).isOk = true ∧
    (parseMadagascarFormat data).map (fun r => r.license_data) =
      .ok (some (buildLicenseData ((jsSplit 124 (cleanedOf data)).take 9))) := by
  have h5' : ¬ ((jsSplit 124 (cleanedOf data)).length < 5) := by omega
  have hpad : List.replicate (9 - (jsSplit 124 (cleanedOf data)).length)
      ([] : JsStr) = [] := by
    rw [Nat.sub_eq_zero_of_le (by omega), List.replicate_zero]
  have hef : extractFields (cleanedOf data) =
      .ok (jsSplit 124 (cleanedOf data)) := by
    simp [extractFields, hnp, h5', padFields, hpad]
  constructor
  · simp only [parseMadagascarFormat, hef]
    rfl
  · simp only [parseMadagascarFormat, hef, Except.map,
      buildLicenseData_take_nine]
    split <;> rfl

/-- C10 (witness). An 11-field text builds its record from the first 9
fields. -/
theorem claim_c10_witness :
    (parseMadagascarFormat (asciiStr "a|b|c|d|e|f|g|h|i|j|k")).map
        (fun r => r.license_data) =
      .ok (some (buildLicenseData
        ((jsSplit 124 (cleanedOf (asciiStr "a|b|c|d|e|f|g|h|i|j|k"))).take 9))) :=
  (claim_c10_extra_fields_ignored (asciiStr "a|b|c|d|e|f|g|h|i|j|k")
    (by decide) (by decide)).2

/-! ## Claim theorem: image boundary (C7) -/

/-- C7 (code bug). For the buffer `"A|B|C|D|E|F|G|H|M" ++ "||IMG||" ++
[0xFF, 0xD8, 0xFF]` the parser succeeds with `has_image = true` but reports
`image_format = "Unknown"`: the text-first image split runs the bytes through
the UTF-8 TextDecoder, which turns each invalid byte into U+FFFD, and
`charCodeAt & 0xFF` then yields `[0xFD, 0xFD, 0xFD]` instead of the JPEG
header — which the sniffing (third conjunct) would otherwise recognise. -/
theorem claim_c7_jpeg_header_lost :
    ((parseMadagascarFormat
        (asciiStr "A|B|C|D|E|F|G|H|M||IMG||" ++ [0xFF, 0xD8, 0xFF])).map
        (fun r => (r.has_image, r.image_format, r.image_size_bytes)) =
      .ok (true, some (asciiStr "Unknown"), 3)) ∧
    imageBytesOf (asciiStr "A|B|C|D|E|F|G|H|M||IMG||" ++ [0xFF, 0xD8, 0xFF]) =
      [0xFD, 0xFD, 0xFD] ∧
    sniffFormat [0xFF, 0xD8, 0xFF] = asciiStr "JPEG" := by
  refine ⟨rfl, rfl, rfl⟩

/-! ## Helper lemmas: hex round trip and input detection -/

theorem hexDigitChar_isHex (k : Nat) (hk : k < 16) :
    isHexCharB (hexDigitChar k) = true := by
  interval_cases k <;> decide

theorem hexDigitChar_not_ws (k : Nat) (hk : k < 16) :
    isJsWs (hexDigitChar k) = false := by
  interval_cases k <;> decide

theorem hexDigitVal_hexDigitChar (k : Nat) (hk : k < 16) :
    hexDigitVal (hexDigitChar k) = some k := by
  interval_cases k <;> decide

theorem mem_hexEncode {bytes : List Nat} (h256 : ∀ b ∈ bytes, b < 256) :
    ∀ ch ∈ hexEncode bytes, ∃ k, k < 16 ∧ ch = hexDigitChar k := by
  induction bytes with
  | nil => intro ch hch; simp [hexEncode] at hch
  | cons b rest ih =>
    intro ch hch
    have hb : b < 256 := h256 b (by simp)
    simp only [hexEncode, List.map_cons, List.flatten_cons, List.mem_append,
      byteToHex, List.mem_cons, List.not_mem_nil, or_false] at hch
    rcases hch with (rfl | rfl) | hch
    · exact ⟨b / 16, by omega, rfl⟩
    · exact ⟨b % 16, Nat.mod_lt _ (by omega), rfl⟩
    · exact ih (fun x hx => h256 x (by simp [hx])) ch hch

theorem hexEncode_length (bytes : List Nat) :
    (hexEncode bytes).length = 2 * bytes.length := by
  induction bytes with
  | nil => rfl
  | cons b rest ih =>
    simp only [hexEncode, List.map_cons, List.flatten_cons, List.length_append,
      byteToHex, List.length_cons, List.length_nil] at ih ⊢
    omega

theorem hexPairs_hexEncode {bytes : List Nat} (h256 : ∀ b ∈ bytes, b < 256) :
    hexPairs (hexEncode bytes) = bytes := by
  induction bytes with
  | nil => rfl
  | cons b rest ih =>
    have hb : b < 256 := h256 b (by simp)
    have hdiv : b / 16 < 16 := by omega
    have hmod : b % 16 < 16 := Nat.mod_lt _ (by omega)
    show hexPairs (byteToHex b ++ hexEncode rest) = b :: rest
    simp only [byteToHex, List.cons_append, List.nil_append, List.append_eq,
      hexPairs, hexPairVal, hexDigitVal_hexDigitChar _ hdiv,
      hexDigitVal_hexDigitChar _ hmod]
    rw [ih (fun x hx => h256 x (by simp [hx]))]
    congr 1
    omega

theorem dropWhile_eq_self_of_all {p : Nat → Bool} (l : List Nat)
    (h : ∀ c ∈ l, p c = false) : l.dropWhile p = l := by
  cases l with
  | nil => rfl
  | cons a t => simp [List.dropWhile, h a (by simp)]

theorem jsTrim_of_no_ws (s : JsStr) (h : ∀ c ∈ s, isJsWs c = false) :
    jsTrim s = s := by
  unfold jsTrim
  rw [dropWhile_eq_self_of_all s h,
    dropWhile_eq_self_of_all s.reverse (fun c hc => h c (List.mem_reverse.mp hc)),
    List.reverse_reverse]

theorem jsStripWs_of_no_ws (s : JsStr) (h : ∀ c ∈ s, isJsWs c = false) :
    jsStripWs s = s := by
  unfold jsStripWs
  exact List.filter_eq_self.mpr (fun a ha => by simp [h a ha])

theorem hexEncode_no_ws {bytes : List Nat} (h256 : ∀ b ∈ bytes, b < 256) :
    ∀ c ∈ hexEncode bytes, isJsWs c = false := by
  intro c hc
  obtain ⟨k, hk, rfl⟩ := mem_hexEncode h256 c hc
  exact hexDigitChar_not_ws k hk

theorem detect_hexEncode (bytes : List Nat) (hne : bytes ≠ [])
    (h256 : ∀ b ∈ bytes, b < 256) :
    detectAndConvertToBinary (hexEncode bytes) = .ok bytes := by
  have hnw := hexEncode_no_ws h256
  have htrim : jsTrim (hexEncode bytes) = hexEncode bytes :=
    jsTrim_of_no_ws _ hnw
  have hlen : (hexEncode bytes).length % 2 = 0 := by
    rw [hexEncode_length]; omega
  have hne2 : hexEncode bytes ≠ [] := by
    intro hx
    apply hne
    have hlen2 := hexEncode_length bytes
    rw [hx] at hlen2
    simp only [List.length_nil] at hlen2
    have hz : bytes.length = 0 := by omega
    exact List.length_eq_zero.mp hz
  have hall : (hexEncode bytes).all isHexCharB = true := by
    rw [List.all_eq_true]
    intro c hc
    obtain ⟨k, hk, rfl⟩ := mem_hexEncode h256 c hc
    exact hexDigitChar_isHex k hk
  unfold detectAndConvertToBinary
  rw [htrim, if_pos ⟨⟨hne2, hall⟩, hlen⟩]
  simp only [hexToBinary]
  rw [htrim, jsStripWs_of_no_ws _ hnw, if_neg (fun h => h hlen),
    hexPairs_hexEncode h256]

/-! ## Claim theorem: skip-cipher equivalence (C8) -/

/-- C8. For any payload bytes `c` (standing for the zlib compression of a
9-field plaintext) and any inflate behavior, decoding the hex encoding of `c`
with the skip-cipher flag set produces exactly the same decoded result as
decoding the hex encoding of the XOR-encrypted `c` with the flag unset: the
cipher stage is bypassed exactly when the flag is set and the pipelines are
otherwise identical. -/
theorem claim_c8_skip_cipher_equivalence
    (inflateFn : List Nat → Option (List Nat)) (c : List Nat)
    (h256 : ∀ b ∈ c, b < 256) :
    decodeBarcodeData inflateFn (hexEncode c) true =
      decodeBarcodeData inflateFn (hexEncode (staticDecrypt c)) false := by
  rcases eq_or_ne c [] with rfl | hne
  · rfl
  · have hsd_ne : staticDecrypt c ≠ [] := by
      intro hx
      have := staticDecrypt_length c
      rw [hx] at this
      exact hne (List.length_eq_zero.mp this.symm)
    unfold decodeBarcodeData decodePipeline
    rw [detect_hexEncode c hne h256,
      detect_hexEncode (staticDecrypt c) hsd_ne (staticDecrypt_lt256 c h256)]
    simp [staticDecrypt_involutive]

/-- C8 (witness). -/
theorem claim_c8_witness :
    decodeBarcodeData (fun _ => none) (hexEncode [0x78, 0x9C]) true =
      decodeBarcodeData (fun _ => none)
        (hexEncode (staticDecrypt [0x78, 0x9C])) false :=
  claim_c8_skip_cipher_equivalence (fun _ => none) [0x78, 0x9C] (by decide)

/-! ## Helper lemmas: ASCII fixed points of the UTF codecs -/

theorem flatten_map_singleton {f : Nat → List Nat} :
    ∀ l : List Nat, (∀ u ∈ l, f u = [u]) → (l.map f).flatten = l := by
  intro l
  induction l with
  | nil => intro _; rfl
  | cons u t ih =>
    intro h
    simp only [List.map_cons, List.flatten_cons, h u (by simp),
      ih (fun x hx => h x (by simp [hx]))]
    rfl

theorem utf16ToCps_ascii : ∀ s : JsStr, (∀ u ∈ s, u < 128) → utf16ToCps s = s := by
  intro s
  induction s with
  | nil => intro _; rfl
  | cons u t ih =>
    intro h
    have hu : u < 128 := h u (by simp)
    cases t with
    | nil =>
      simp only [utf16ToCps]
      rw [if_neg (by omega)]
    | cons v t2 =>
      simp only [utf16ToCps]
      rw [if_neg (by omega), if_neg (by omega),
        ih (fun x hx => h x (by simp [hx]))]

theorem cpToUtf8_ascii (u : Nat) (h : u < 128) : cpToUtf8 u = [u] := by
  unfold cpToUtf8
  rw [if_pos (by omega)]

theorem utf8Encode_ascii (s : JsStr) (h : ∀ u ∈ s, u < 128) :
    utf8Encode s = s := by
  unfold utf8Encode
  rw [utf16ToCps_ascii s h]
  exact flatten_map_singleton s (fun u hu => cpToUtf8_ascii u (h u hu))

theorem utf8StartByte_ascii (b : Nat) (h : b < 128) :
    utf8StartByte b = (some b, utf8Init) := by
  unfold utf8StartByte
  rw [if_pos (by omega)]

theorem utf8DecodeGo_ascii : ∀ s : List Nat, (∀ b ∈ s, b < 128) →
    utf8DecodeGo utf8Init s = s := by
  intro s
  induction s with
  | nil => intro _; rfl
  | cons b t ih =>
    intro h
    have hb : b < 128 := h b (by simp)
    show utf8DecodeGo utf8Init (b :: t) = b :: t
    rw [show utf8DecodeGo utf8Init (b :: t) = b :: utf8DecodeGo utf8Init t from by
      simp only [utf8DecodeGo, utf8StartByte_ascii b hb]
      rfl]
    rw [ih (fun x hx => h x (by simp [hx]))]

theorem cpToUtf16_small (u : Nat) (h : u < 0x10000) : cpToUtf16 u = [u] := by
  unfold cpToUtf16
  rw [if_pos h]

theorem jsDecodeBytes_ascii (s : List Nat) (h : ∀ b ∈ s, b < 128) :
    jsDecodeBytes s = s := by
  unfold jsDecodeBytes utf8DecodeCp
  rw [utf8DecodeGo_ascii s h]
  exact flatten_map_singleton s (fun u hu => cpToUtf16_small u (by have := h u hu; omega))

/-! ## Helper lemmas: pipe splitting of a serialized record -/

theorem jsSplitGo_sepfree (sep : Nat) :
    ∀ (f s acc : List Nat), sep ∉ f →
      jsSplitGo sep (f ++ s) acc = jsSplitGo sep s (acc ++ f) := by
  intro f
  induction f with
  | nil => intro s acc _; simp
  | cons c f' ih =>
    intro s acc hmem
    have hc : ¬ (c = sep) := fun hx => hmem (by simp [hx])
    simp only [List.cons_append, jsSplitGo, if_neg hc, List.append_eq]
    rw [ih s (acc ++ [c]) (fun hx => hmem (by simp [hx])), ← List.append_cons]

theorem jsSplitGo_sep (sep : Nat) (s acc : List Nat) :
    jsSplitGo sep (sep :: s) acc = acc :: jsSplitGo sep s [] := by
  simp [jsSplitGo]

theorem jsSplitGo_no_sep (sep : Nat) (f acc : List Nat) (h : sep ∉ f) :
    jsSplitGo sep f acc = [acc ++ f] := by
  have hx := jsSplitGo_sepfree sep f [] acc h
  rw [List.append_nil] at hx
  simpa [jsSplitGo] using hx

theorem jsSplit_serialize (R : LicenseRecord)
    (hp : ∀ f ∈ recordFields R, (124 : Nat) ∉ f) :
    jsSplit 124 (serializeRecord R) = recordFields R := by
  have h0 := hp R.name (by simp [recordFields])
  have h1 := hp R.idNum (by simp [recordFields])
  have h2 := hp R.dob (by simp [recordFields])
  have h3 := hp R.licNum (by simp [recordFields])
  have h4 := hp R.validity (by simp [recordFields])
  have h5 := hp R.codes (by simp [recordFields])
  have h6 := hp R.vehRestr (by simp [recordFields])
  have h7 := hp R.drvRestr (by simp [recordFields])
  have h8 := hp R.sex (by simp [recordFields])
  unfold jsSplit serializeRecord
  rw [jsSplitGo_sepfree 124 _ _ _ h0, jsSplitGo_sep,
    jsSplitGo_sepfree 124 _ _ _ h1, jsSplitGo_sep,
    jsSplitGo_sepfree 124 _ _ _ h2, jsSplitGo_sep,
    jsSplitGo_sepfree 124 _ _ _ h3, jsSplitGo_sep,
    jsSplitGo_sepfree 124 _ _ _ h4, jsSplitGo_sep,
    jsSplitGo_sepfree 124 _ _ _ h5, jsSplitGo_sep,
    jsSplitGo_sepfree 124 _ _ _ h6, jsSplitGo_sep,
    jsSplitGo_sepfree 124 _ _ _ h7, jsSplitGo_sep,
    jsSplitGo_no_sep 124 _ _ h8]
  simp [recordFields]

/-! ## Helper lemmas: the parser on a clean serialized record -/

theorem imgSplit_no_marker (data : List Nat)
    (h1 : firstIdxOf (jsDecodeBytes data) imgMarkerStr = none)
    (h2 : firstIdxOf data imgMarkerBytes = none) :
    imgSplit data = (data, [], false) := by
  simp only [imgSplit, h1, h2]

theorem formatDate_len8 (s : JsStr) (h : s.length = 8) :
    formatDate s = s.take 4 ++ 45 :: (s.drop 4).take 2 ++ 45 :: (s.drop 6).take 2 := by
  unfold formatDate
  rw [if_neg (by omega)]

theorem buildLicenseData_record (R : LicenseRecord) (d1 d2 : JsStr)
    (hdob : R.dob.length = 8)
    (hval : R.validity = d1 ++ 45 :: d2)
    (hd1len : d1.length = 8) (hd2len : d2.length = 8)
    (hd1 : (45 : Nat) ∉ d1) (hd2 : (45 : Nat) ∉ d2) :
    buildLicenseData (recordFields R) =
      { person_name := R.name
        id_number := R.idNum
        date_of_birth :=
          R.dob.take 4 ++ 45 :: (R.dob.drop 4).take 2 ++ 45 :: (R.dob.drop 6).take 2
        license_number := R.licNum
        valid_from :=
          d1.take 4 ++ 45 :: (d1.drop 4).take 2 ++ 45 :: (d1.drop 6).take 2
        valid_to :=
          d2.take 4 ++ 45 :: (d2.drop 4).take 2 ++ 45 :: (d2.drop 6).take 2
        license_codes := if R.codes = [] then [] else jsSplit 44 R.codes
        vehicle_restrictions :=
          if R.vehRestr = [] then [] else jsSplit 44 R.vehRestr
        driver_restrictions :=
          if R.drvRestr = [] then [] else jsSplit 44 R.drvRestr
        sex := R.sex
        country := asciiStr "MG"
        format_version := asciiStr "standardized_madagascar_v5" } := by
  have hvne : ¬ (R.validity = []) := by
    rw [hval]
    intro hx
    have hlen := congrArg List.length hx
    simp at hlen
  have hsplit : jsSplit 45 R.validity = [d1, d2] := by
    rw [hval]
    unfold jsSplit
    rw [jsSplitGo_sepfree 45 _ _ _ hd1, jsSplitGo_sep, jsSplitGo_no_sep 45 _ _ hd2]
    simp
  simp only [buildLicenseData, recordFields, List.getD_cons_zero,
    List.getD_cons_succ]
  rw [if_neg hvne, hsplit]
  simp only [List.getD_cons_zero, List.getD_cons_succ]
  rw [formatDate_len8 _ hdob, formatDate_len8 _ hd1len, formatDate_len8 _ hd2len]

/-! ## Claim theorems: full-pipeline round trip (C1) -/

/-- C1 (counterexample). The record with name `"x AB"` (and otherwise
schema-conformant fields) is expressible in the 9-field schema, yet the full
pipeline decodes its payload to `person_name = " AB"`: the structural pattern
matches starting inside the name field and the matched groups replace the
split fields. -/
theorem claim_c1_counterexample :
    ((decodeBarcodeData
        (fun x =>
          if x = asciiStr "x AB|123456789012|19800115|LIC1|20200101-20250101|B|None|None|M"
          then some (asciiStr "x AB|123456789012|19800115|LIC1|20200101-20250101|B|None|None|M")
          else none)
        (hexEncode (staticDecrypt
          (asciiStr "x AB|123456789012|19800115|LIC1|20200101-20250101|B|None|None|M")))
        false).license_data.map (fun l => l.person_name)) = some (asciiStr " AB") ∧
    asciiStr " AB" ≠ asciiStr "x AB" := by
  exact ⟨rfl, by decide⟩

/-- C1 (amended). For every ASCII record `R` in the 9-field schema whose
fields contain no pipe and no NUL, whose serialization has no surrounding
whitespace and no `||IMG||` marker, whose date of birth is 8 characters and
whose validity field is two hyphen-free 8-character tokens joined by `-`, and
on whose serialization the structural pattern either finds no match or
matches exactly `R`'s nine fields: feeding the hex encoding of the
XOR-encrypted compressed payload through the pipeline returns a success
result whose fields equal `R`'s normalized form — dates in ISO `YYYY-MM-DD`
form, list fields comma-split, name and sex unchanged. -/
theorem claim_c1_roundtrip
    (inflateFn : List Nat → Option (List Nat)) (R : LicenseRecord)
    (c : List Nat) (d1 d2 : JsStr)
    (hc : c ≠ []) (hc256 : ∀ b ∈ c, b < 256)
    (hascii : ∀ u ∈ serializeRecord R, 0 < u ∧ u < 128)
    (htrim : jsTrim (serializeRecord R) = serializeRecord R)
    (hpipe : ∀ f ∈ recordFields R, (124 : Nat) ∉ f)
    (hmark : firstIdxOf (serializeRecord R) imgMarkerStr = none)
    (hdob : R.dob.length = 8)
    (hval : R.validity = d1 ++ 45 :: d2)
    (hd1len : d1.length = 8) (hd2len : d2.length = 8)
    (hd1 : (45 : Nat) ∉ d1) (hd2 : (45 : Nat) ∉ d2)
    (hpat : findMatchParse (serializeRecord R) = none ∨
            findMatchParse (serializeRecord R) = some (recordFields R))
    (hinf : inflateFn c = some (utf8Encode (serializeRecord R))) :
    decodeBarcodeData inflateFn (hexEncode (staticDecrypt c)) false =
      { success := true
        license_data := some
          { person_name := R.name
            id_number := R.idNum
            date_of_birth :=
              R.dob.take 4 ++ 45 :: (R.dob.drop 4).take 2 ++ 45 :: (R.dob.drop 6).take 2
            license_number := R.licNum
            valid_from :=
              d1.take 4 ++ 45 :: (d1.drop 4).take 2 ++ 45 :: (d1.drop 6).take 2
            valid_to :=
              d2.take 4 ++ 45 :: (d2.drop 4).take 2 ++ 45 :: (d2.drop 6).take 2
            license_codes := if R.codes = [] then [] else jsSplit 44 R.codes
            vehicle_restrictions :=
              if R.vehRestr = [] then [] else jsSplit 44 R.vehRestr
            driver_restrictions :=
              if R.drvRestr = [] then [] else jsSplit 44 R.drvRestr
            sex := R.sex
            country := asciiStr "MG"
            format_version := asciiStr "standardized_madagascar_v5" }
        has_image := false
        image_size_bytes := 0
        total_payload_size := (serializeRecord R).length
        decoding_format := asciiStr "pipe_delimited_xor_encrypted"
        message := asciiStr "Madagascar license decoded successfully: " ++ R.licNum
        image_base64 := none
        image_format := none
        error := none } := by
  have hsascii : ∀ u ∈ serializeRecord R, u < 128 := fun u hu => (hascii u hu).2
  have henc : utf8Encode (serializeRecord R) = serializeRecord R :=
    utf8Encode_ascii _ hsascii
  have hdec : jsDecodeBytes (serializeRecord R) = serializeRecord R :=
    jsDecodeBytes_ascii _ hsascii
  have hmb : imgMarkerBytes = imgMarkerStr := by decide
  have hsd_ne : staticDecrypt c ≠ [] := by
    intro hx
    apply hc
    have hlen := staticDecrypt_length c
    rw [hx] at hlen
    exact List.length_eq_zero.mp hlen.symm
  have hadv : advancedDecompress inflateFn c = .ok (serializeRecord R) := by
    simp only [advancedDecompress, hinf, henc]
  have him : imgSplit (serializeRecord R) = (serializeRecord R, [], false) :=
    imgSplit_no_marker _ (by rw [hdec]; exact hmark) (by rw [hmb]; exact hmark)
  have hfilter : (jsDecodeBytes (serializeRecord R)).filter (fun x => x ≠ 0) =
      serializeRecord R := by
    rw [hdec]
    exact List.filter_eq_self.mpr (fun a ha => by
      have := (hascii a ha).1
      simp
      omega)
  have hclean : cleanedOf (serializeRecord R) = serializeRecord R := by
    unfold cleanedOf licensePartOf
    rw [him]
    exact (by rw [hfilter, htrim])
  have hfields : extractFields (cleanedOf (serializeRecord R)) =
      .ok (recordFields R) := by
    rw [hclean]
    rcases hpat with hnone | hsome
    · simp only [extractFields, hnone]
      rw [jsSplit_serialize R hpipe]
      have h9 : (recordFields R).length = 9 := by simp [recordFields]
      rw [if_neg (by omega)]
      simp [padFields, h9]
    · simp only [extractFields, hsome]
  have hparse : parseMadagascarFormat (serializeRecord R) =
      .ok { success := true
            license_data := some (buildLicenseData (recordFields R))
            has_image := false
            image_size_bytes := 0
            total_payload_size := (serializeRecord R).length
            decoding_format := asciiStr "pipe_delimited_xor_encrypted"
            message := asciiStr "Madagascar license decoded successfully: " ++
              (buildLicenseData (recordFields R)).license_number
            image_base64 := none
            image_format := none
            error := none } := by
    have himgb : imageBytesOf (serializeRecord R) = [] := by
      simp [imageBytesOf, him]
    have hhas : hasImageOf (serializeRecord R) = false := by
      simp [hasImageOf, him]
    simp only [parseMadagascarFormat, hfields, himgb, hhas]
    simp
  have hlicnum : (buildLicenseData (recordFields R)).license_number = R.licNum := by
    rw [buildLicenseData_record R d1 d2 hdob hval hd1len hd2len hd1 hd2]
  unfold decodeBarcodeData decodePipeline
  rw [detect_hexEncode (staticDecrypt c) hsd_ne (staticDecrypt_lt256 c hc256)]
  simp only [Bool.false_eq_true, if_false, staticDecrypt_involutive, hadv,
    hparse, hlicnum, buildLicenseData_record R d1 d2 hdob hval hd1len hd2len hd1 hd2]

/-- The reference sample record of `testWithKnownSample`. -/
def johnDoeRecord : LicenseRecord :=
  ⟨asciiStr "John Doe", asciiStr "123456789012", asciiStr "19800115",
   asciiStr "LIC1234567890", asciiStr "20200101-20250101", asciiStr "B,C",
   asciiStr "None", asciiStr "None", asciiStr "M"⟩

/-- C1 (witness). The John Doe sample of `testWithKnownSample` decodes to its
normalized form through the full pipeline. -/
theorem claim_c1_witness :
    decodeBarcodeData (fun _ => some (utf8Encode (serializeRecord johnDoeRecord)))
        (hexEncode (staticDecrypt [1])) false =
      { success := true
        license_data := some
          { person_name := asciiStr "John Doe"
            id_number := asciiStr "123456789012"
            date_of_birth := asciiStr "1980-01-15"
            license_number := asciiStr "LIC1234567890"
            valid_from := asciiStr "2020-01-01"
            valid_to := asciiStr "2025-01-01"
            license_codes := [asciiStr "B", asciiStr "C"]
            vehicle_restrictions := [asciiStr "None"]
            driver_restrictions := [asciiStr "None"]
            sex := asciiStr "M"
            country := asciiStr "MG"
            format_version := asciiStr "standardized_madagascar_v5" }
        has_image := false
        image_size_bytes := 0
        total_payload_size := (serializeRecord johnDoeRecord).length
        decoding_format := asciiStr "pipe_delimited_xor_encrypted"
        message := asciiStr "Madagascar license decoded successfully: LIC1234567890"
        image_base64 := none
        image_format := none
        error := none } := by
  have h := claim_c1_roundtrip
    (fun _ => some (utf8Encode (serializeRecord johnDoeRecord)))
    johnDoeRecord [1] (asciiStr "20200101") (asciiStr "20250101")
    (by decide) (by decide) (by decide) (by decide) (by decide) (by decide)
    (by decide) (by decide) (by decide) (by decide) (by decide) (by decide)
    (Or.inl (by decide)) rfl
  exact h.trans (by decide)

end LincScan
